import Mathlib

/-!
Verification of the signal-evaluation pipeline of the S&P 500 trading bot
(`S&P500-trading.py`) against its natural-language specification.

The Python source computes, per instrument, a pandas feature table
(SMA, MACD, Signal line, RSI, Volatility, AvgVolume) from weekly bars,
filters on liquidity/volatility, derives a BUY/SELL/HOLD signal from the
latest fully-defined row, and reconciles it with the current position into
at most one market order.

Embedding conventions:
- pandas float values are idealised as exact rationals `ℚ`; an undefined
  (NaN) entry is `none : Option ℚ`.  pandas division `avg_gain / avg_loss`
  with `avg_loss = 0` yields `+inf` when `avg_gain > 0` (so `RSI = 100`)
  and NaN when `avg_gain = 0`; this case split is modelled explicitly in
  `rsiRaw` below.
- a dataframe is a list of `FeatureRow`s (one per input bar); a rolling
  window that is not yet full is `none`, exactly as pandas `rolling(w)`
  with its default `min_periods = w`.
- `Volatility` is pandas `rolling(10).std()` (sample std, `ddof = 1`).
  `ℚ` has no square root, so the column records the sample *variance*;
  every claim below depends only on the definedness / zero-fill of this
  column, which the monotone square root preserves.
-/

namespace SP500

/-- One weekly price bar.  The source only ever reads the `Close` and
`Volume` columns of the downloaded frame, so the other bar fields
(open/high/low) are omitted. -/
structure Bar where
  close : ℚ
  volume : ℚ
deriving DecidableEq, Repr

/-- The `Close` series of the frame, indexed from 0 (out-of-range reads never
occur in the code; they default to 0 here). -/
def closeAt (bars : List Bar) (i : ℕ) : ℚ := (bars.getD i ⟨0, 0⟩).close

/-- The `Volume` series of the frame. -/
def volumeAt (bars : List Bar) (i : ℕ) : ℚ := (bars.getD i ⟨0, 0⟩).volume

/-- pandas `Series.rolling(window=w).mean()` over a NaN-free series `f`:
defined once the window is full (index `i ≥ w - 1`), mean of the trailing
`w` entries. -/
def rollingMean (w : ℕ) (f : ℕ → ℚ) (i : ℕ) : Option ℚ :=
  if w ≤ i + 1 then some ((∑ j in Finset.range w, f (i - j)) / w) else none

/-- pandas `Series.ewm(span, adjust=False).mean()`: `e 0 = f 0`,
`e (i+1) = a * f (i+1) + (1-a) * e i` with smoothing factor
`a = 2 / (span + 1)`. -/
def ema (a : ℚ) (f : ℕ → ℚ) : ℕ → ℚ
  | 0 => f 0
  | i + 1 => a * f (i + 1) + (1 - a) * ema a f i

/-- Column `data["SMA"]` before the fill step: rolling mean of `Close` with
window `min(20, len(data))` (source line 31-32). -/
def smaRaw (bars : List Bar) (i : ℕ) : Option ℚ :=
  rollingMean (min 20 bars.length) (closeAt bars) i

/-- Column `data["MACD"] = EMA12 - EMA26` (source lines 36-38); spans 12 and 26
give smoothing factors `2/13` and `2/27`.  Total: an `ewm` mean has no NaN
entries. -/
def macdVal (bars : List Bar) (i : ℕ) : ℚ :=
  ema (2 / 13) (closeAt bars) i - ema (2 / 27) (closeAt bars) i

/-- Column `data["Signal"]`: EMA with span 9 (factor `2/10 = 1/5`) of MACD
(source line 39). -/
def signalVal (bars : List Bar) (i : ℕ) : ℚ :=
  ema (1 / 5) (macdVal bars) i

/-- The `MACD` column before the fill step.  An `ewm` mean of a NaN-free
series has no NaN entries, so every cell is defined. -/
def macdRaw (bars : List Bar) (i : ℕ) : Option ℚ := some (macdVal bars i)

/-- The `Signal` column before the fill step; likewise NaN-free. -/
def signalRaw (bars : List Bar) (i : ℕ) : Option ℚ := some (signalVal bars i)

/-- Series `gain = delta.where(delta > 0, 0)` with `delta = Close.diff(1)`
(source lines 46-47).  At index 0 `delta` is NaN, the condition
`NaN > 0` is False, so the entry is replaced by 0. -/
def gain (bars : List Bar) (i : ℕ) : ℚ :=
  if i = 0 then 0 else max (closeAt bars i - closeAt bars (i - 1)) 0

/-- Series `loss = -delta.where(delta < 0, 0)` (source line 48); again 0 at
index 0. -/
def loss (bars : List Bar) (i : ℕ) : ℚ :=
  if i = 0 then 0 else max (closeAt bars (i - 1) - closeAt bars i) 0

/-- Series `avg_gain = gain.rolling(window=14).mean()` (source line 49). -/
def avgGain (bars : List Bar) (i : ℕ) : Option ℚ := rollingMean 14 (gain bars) i

/-- Series `avg_loss = loss.rolling(window=14).mean()` (source line 50). -/
def avgLoss (bars : List Bar) (i : ℕ) : Option ℚ := rollingMean 14 (loss bars) i

/-- Column `data["RSI"] = 100 - 100 / (1 + avg_gain / avg_loss)` (source lines
51-52) before the fill step.  Float semantics of the division by
`avg_loss = 0`: positive `avg_gain` gives `rs = +inf` hence `RSI = 100`;
`avg_gain = 0` gives `rs = NaN` hence an undefined RSI entry. -/
def rsiRaw (bars : List Bar) (i : ℕ) : Option ℚ :=
  match avgGain bars i, avgLoss bars i with
  | some g, some l =>
      if l = 0 then (if g = 0 then none else some 100)
      else some (100 - 100 / (1 + g / l))
  | _, _ => none

/-- Value of `Close.pct_change()` at index `i ≥ 1` (source line 58).  The source
series are positive market prices, so the `ℚ` division is the float one. -/
def pctVal (bars : List Bar) (i : ℕ) : ℚ :=
  (closeAt bars i - closeAt bars (i - 1)) / closeAt bars (i - 1)

/-- Trailing 10-entry sample variance (`ddof = 1`) of `f` ending at `i`;
pandas `rolling(10).std()` is its square root (see file header). -/
def sampleVar10 (f : ℕ → ℚ) (i : ℕ) : ℚ :=
  ((∑ j in Finset.range 10, (f (i - j) - (∑ k in Finset.range 10, f (i - k)) / 10) ^ 2)) / 9

/-- Column `data["Volatility"] = Close.pct_change().rolling(10).std()` before the
fill step.  `pct_change` is NaN at index 0, so the first full window of 10
defined entries ends at index 10. -/
def volRaw (bars : List Bar) (i : ℕ) : Option ℚ :=
  if 10 ≤ i then some (sampleVar10 (pctVal bars) i) else none

/-- Column `data["AvgVolume"] = Volume.rolling(10).mean()` (source line 61). -/
def avgVolRaw (bars : List Bar) (i : ℕ) : Option ℚ := rollingMean 10 (volumeAt bars) i

/-- pandas `fillna(method="ffill")` read at one index: the entry itself if
defined, otherwise the nearest defined entry before it; leading undefined
entries stay undefined. -/
def ffillAt (f : ℕ → Option ℚ) : ℕ → Option ℚ
  | 0 => f 0
  | i + 1 => match f (i + 1) with
    | some v => some v
    | none => ffillAt f i

/-- pandas `fillna(d)` read at one index. -/
def fillWith (d : ℚ) (f : ℕ → Option ℚ) (i : ℕ) : Option ℚ :=
  some ((f i).getD d)

/-- One row of the derived feature table; each field is an `Option`
because a pandas cell can be NaN.  `macdSignal` is the `Signal` column
(the MACD signal line). -/
structure FeatureRow where
  close : Option ℚ
  sma : Option ℚ
  macd : Option ℚ
  macdSignal : Option ℚ
  rsi : Option ℚ
  volatility : Option ℚ
  avgVolume : Option ℚ
deriving DecidableEq, Repr

instance : Inhabited FeatureRow := ⟨⟨none, none, none, none, none, none, none⟩⟩

/-- Row `i` of the table returned by `calculate_indicators`, after the
fill steps of source lines 63-69: SMA forward-filled, MACD/Signal filled
with 0 (a no-op since `ewm` means are total, kept for fidelity), RSI
filled with 50, Volatility and AvgVolume filled with 0. -/
def mkRow (bars : List Bar) (i : ℕ) : FeatureRow where
  close := some (closeAt bars i)
  sma := ffillAt (smaRaw bars) i
  macd := fillWith 0 (macdRaw bars) i
  macdSignal := fillWith 0 (signalRaw bars) i
  rsi := fillWith 50 (rsiRaw bars) i
  volatility := fillWith 0 (volRaw bars) i
  avgVolume := fillWith 0 (avgVolRaw bars) i

/-- Function `calculate_indicators` (source lines 21-81).  `data.empty or
len(data) < 26` collapses to `len < 26`, in which case the function
returns `None` (InsufficientHistory).  Past that guard `len ≥ 26`, so the
`len >= 26` test at line 35 and the `len >= 14` test at line 45 are always
true (their else branches, lines 40-42 and 53-55, are dead code), and the
required-columns check at lines 72-76 always passes because every column
was just assigned.  The result has one row per input bar. -/
def calculate_indicators (bars : List Bar) : Option (List FeatureRow) :=
  if bars.length < 26 then none
  else some ((List.range bars.length).map (mkRow bars))

/-- Trading signal: the three strings returned by
`evaluate_trading_signals`.  The same type doubles as the `action`
argument of `place_order` (the code passes the signal string through). -/
inductive Signal where
  | BUY
  | SELL
  | HOLD
deriving DecidableEq, Repr

/-- A row survives `dropna(subset=["Close", "SMA", "MACD", "Signal",
"RSI"])` (source line 120) exactly when all five required cells are
defined. -/
def rowComplete (r : FeatureRow) : Bool :=
  r.close.isSome && r.sma.isSome && r.macd.isSome && r.macdSignal.isSome && r.rsi.isSome

/-- The buy branch condition of source lines 129-133, read off the latest
row.  On a `rowComplete` row every `getD` returns the stored value. -/
def buySig (r : FeatureRow) : Bool :=
  decide (r.sma.getD 0 < r.close.getD 0 ∧ r.macdSignal.getD 0 < r.macd.getD 0 ∧
    (50 : ℚ) < r.rsi.getD 0)

/-- The sell branch condition of source lines 137-141. -/
def sellSig (r : FeatureRow) : Bool :=
  decide (r.close.getD 0 < r.sma.getD 0 ∧ r.macd.getD 0 < r.macdSignal.getD 0 ∧
    r.rsi.getD 0 < (50 : ℚ))

/-- Function `evaluate_trading_signals` (source lines 104-148): drop the rows with
an undefined required cell, take the last remaining row (`iloc[-1]`), and
test the buy branch then the sell branch; an empty remainder is HOLD.
The column flattening at source line 107 renames columns without touching
any value, so it does not appear in the value model (the typed row always
carries all required columns, making the missing-columns guard of lines
112-117 pass). -/
def evaluate_trading_signals (data : List FeatureRow) : Signal :=
  match (data.filter rowComplete).getLast? with
  | none => .HOLD
  | some latest =>
      if buySig latest then .BUY
      else if sellSig latest then .SELL
      else .HOLD

/-- Branch-order variant of `evaluate_trading_signals` that tests the
sell branch before the buy branch, used to state that the order of the
two mutually exclusive branches does not affect the outcome. -/
def evaluate_trading_signals_sellFirst (data : List FeatureRow) : Signal :=
  match (data.filter rowComplete).getLast? with
  | none => .HOLD
  | some latest =>
      if sellSig latest then .SELL
      else if buySig latest then .BUY
      else .HOLD

/-- Function `filter_stocks` (source lines 85-101).  `iloc[-1]` on an empty frame
raises, which the enclosing `except` turns into `False`; a NaN in either
cell of the last row returns `False` (fails closed); otherwise both
thresholds must be strictly exceeded.  The thresholds are the
`min_volume` / `min_volatility` keyword parameters (defaults 1,000,000
and 0.02). -/
def filter_stocks (data : List FeatureRow) (min_volume min_volatility : ℚ) : Bool :=
  match data.getLast? with
  | none => false
  | some r =>
      match r.avgVolume, r.volatility with
      | some av, some vol => decide (min_volume < av ∧ min_volatility < vol)
      | _, _ => false

/-- An order submitted to the broker: side and share quantity
(`MarketOrder(action, qty)` at source lines 164 and 169). -/
structure OrderIntent where
  side : Signal
  qty : ℤ
deriving DecidableEq, Repr

/-- The decision core of `place_order` (source lines 152-176) as a
function of the current net position: BUY while already long is a no-op,
otherwise a fixed 10-share buy; SELL while not long is a no-op, otherwise
a sell of the whole current position.  A HOLD action never reaches
`place_order` in the source; if it did, the unbound `order` variable
would raise and the `except` would swallow it, so it maps to no order. -/
def place_order (current_position : ℤ) (action : Signal) : Option OrderIntent :=
  match action with
  | .BUY => if 0 < current_position then none else some ⟨.BUY, 10⟩
  | .SELL => if current_position ≤ 0 then none else some ⟨.SELL, current_position⟩
  | .HOLD => none

/-- Default thresholds of `filter_stocks` as called by
`monitor_and_trade` (no overrides at source line 206). -/
def defaultMinVolume : ℚ := 1000000

/-- Default volatility threshold, 0.02. -/
def defaultMinVolatility : ℚ := 2 / 100

/-- The per-symbol body of `monitor_and_trade` (source lines 193-222):
indicator computation, the `len(data) < 10` sanity floor, the liquidity
filter, signal evaluation, and the order decision.  Returns the signal
that was evaluated (if evaluation was reached) and the order that was
submitted (if any). -/
def pipeline (bars : List Bar) (current_position : ℤ) : Option Signal × Option OrderIntent :=
  match calculate_indicators bars with
  | none => (none, none)
  | some data =>
      if data.length < 10 then (none, none)
      else if filter_stocks data defaultMinVolume defaultMinVolatility then
        let s := evaluate_trading_signals data
        (some s,
          match s with
          | .BUY => place_order current_position .BUY
          | .SELL => place_order current_position .SELL
          | .HOLD => none)
      else (none, none)

/-- The order produced for one symbol by one scan iteration. -/
def monitor_and_trade_step (bars : List Bar) (current_position : ℤ) : Option OrderIntent :=
  (pipeline bars current_position).2

/-! Helper lemmas shared by the claim theorems below.  The section-local
`semireducible` attribute undoes the `irreducible` marking that Batteries
puts on the rational arithmetic primitives, so that `decide` can evaluate
the embedded pipeline on concrete inputs. -/

section Theorems

attribute [local semireducible] Rat.mul Rat.add Rat.inv Rat.sub

/-- The head of a filtered list is the first element satisfying the
predicate. -/
theorem head?_filter_eq_find? {α : Type} (p : α → Bool) :
    ∀ l : List α, (l.filter p).head? = l.find? p
  | [] => rfl
  | a :: l => by
    by_cases h : p a <;>
      simp [List.filter_cons, List.find?_cons, h, head?_filter_eq_find? p l]

/-- The last element of a filtered list is the last element satisfying
the predicate (pandas `dropna` followed by `iloc[-1]`). -/
theorem getLast?_filter_eq_find?_reverse {α : Type} (p : α → Bool) (l : List α) :
    (l.filter p).getLast? = l.reverse.find? p := by
  rw [← List.head?_reverse, ← List.filter_reverse]
  exact head?_filter_eq_find? p l.reverse

/-- Forward fill of an everywhere-undefined prefix stays undefined. -/
theorem ffillAt_eq_none (f : ℕ → Option ℚ) :
    ∀ i, (∀ j, j ≤ i → f j = none) → ffillAt f i = none
  | 0, h => by
    have h0 := h 0 (Nat.le_refl 0)
    simp [ffillAt, h0]
  | i + 1, h => by
    have h1 := h (i + 1) (Nat.le_refl _)
    have ih := ffillAt_eq_none f i fun j hj => h j (Nat.le_trans hj (Nat.le_succ i))
    simp [ffillAt, h1, ih]

/-- Forward fill carries the last defined value forward across an
undefined stretch. -/
theorem ffillAt_carry (f : ℕ → Option ℚ) :
    ∀ i j v, j ≤ i → f j = some v → (∀ k, j < k → k ≤ i → f k = none) →
      ffillAt f i = some v
  | 0, j, v, hj, hv, _ => by
    have hj0 : j = 0 := Nat.le_zero.mp hj
    subst hj0
    simpa [ffillAt] using hv
  | i + 1, j, v, hj, hv, hafter => by
    by_cases hje : j = i + 1
    · subst hje
      simp [ffillAt, hv]
    · have hji : j ≤ i := Nat.lt_succ_iff.mp (Nat.lt_of_le_of_ne hj hje)
      have h1 : f (i + 1) = none :=
        hafter (i + 1) (Nat.lt_succ_of_le hji) (Nat.le_refl _)
      have ih := ffillAt_carry f i j v hji hv
        fun k hk1 hk2 => hafter k hk1 (Nat.le_trans hk2 (Nat.le_succ i))
      simp [ffillAt, h1, ih]

/-- A defined rolling mean of a nonnegative series is nonnegative. -/
theorem rollingMean_nonneg {w : ℕ} {f : ℕ → ℚ} (hf : ∀ j, 0 ≤ f j) {i : ℕ} {v : ℚ}
    (h : rollingMean w f i = some v) : 0 ≤ v := by
  unfold rollingMean at h
  split at h
  · cases h
    exact div_nonneg (Finset.sum_nonneg fun j _ => hf _) (Nat.cast_nonneg w)
  · cases h

/-- Per-period gains are nonnegative. -/
theorem gain_nonneg (bars : List Bar) (i : ℕ) : 0 ≤ gain bars i := by
  unfold gain
  split
  · exact le_refl 0
  · exact le_max_right _ _

/-- Per-period losses are nonnegative. -/
theorem loss_nonneg (bars : List Bar) (i : ℕ) : 0 ≤ loss bars i := by
  unfold loss
  split
  · exact le_refl 0
  · exact le_max_right _ _

/-- A successful `calculate_indicators` call means at least 26 bars, and
the table is the row-per-bar map. -/
theorem calculate_indicators_some {bars : List Bar} {T : List FeatureRow}
    (h : calculate_indicators bars = some T) :
    26 ≤ bars.length ∧ T = (List.range bars.length).map (mkRow bars) := by
  unfold calculate_indicators at h
  split at h
  · cases h
  · next hlen => exact ⟨Nat.le_of_not_lt hlen, (Option.some.inj h).symm⟩

/-- Fewer than 26 bars make `calculate_indicators` return `None`. -/
theorem calculate_indicators_eq_none {bars : List Bar} (h : bars.length < 26) :
    calculate_indicators bars = none := by simp [calculate_indicators, h]

/-- When the engine reports no table, the scan body produces nothing. -/
theorem pipeline_none_of_indicators_none {bars : List Bar} (p : ℤ)
    (h : calculate_indicators bars = none) : pipeline bars p = (none, none) := by
  simp [pipeline, h]

/-- Indexing the row-per-bar map. -/
theorem getD_range_map {β : Type} (f : ℕ → β) {n i : ℕ} (h : i < n) (d : β) :
    ((List.range n).map f).getD i d = f i := by
  rw [List.getD_eq_getElem?_getD, List.getElem?_map, List.getElem?_range h]
  rfl

/-- Lemma: `filter_stocks` passes exactly when the last row exists and both of
its liquidity cells are defined and strictly above the thresholds. -/
theorem filter_stocks_true_iff (data : List FeatureRow) (mv mvol : ℚ) :
    filter_stocks data mv mvol = true ↔
      ∃ r av vol, data.getLast? = some r ∧ r.avgVolume = some av ∧
        r.volatility = some vol ∧ mv < av ∧ mvol < vol := by
  unfold filter_stocks
  cases hl : data.getLast? with
  | none => simp
  | some r =>
    cases hav : r.avgVolume with
    | none => simp [hav]
    | some av =>
      cases hvol : r.volatility with
      | none => simp [hav, hvol]
      | some vol => simp [hav, hvol, decide_eq_true_eq, and_assoc]

/-- Unfolding lemma for the BUY branch of `place_order`. -/
theorem place_order_BUY (p : ℤ) :
    place_order p .BUY = if 0 < p then none else some ⟨.BUY, 10⟩ := rfl

/-- Unfolding lemma for the SELL branch of `place_order`. -/
theorem place_order_SELL (p : ℤ) :
    place_order p .SELL = if p ≤ 0 then none else some ⟨.SELL, p⟩ := rfl

/-- Unfolding lemma for the HOLD branch of `place_order`. -/
theorem place_order_HOLD (p : ℤ) : place_order p .HOLD = none := rfl

/-- C1: `place_order` follows the position-reconciliation table exactly:
BUY while long is a no-op, BUY while flat or short submits the fixed
10-share buy, SELL while long submits a sell of exactly the current
position, SELL while flat or short (in particular at position 0) is a
no-op, and every submitted order has positive quantity. -/
theorem place_order_reconciliation (p : ℤ) :
    (0 < p → place_order p .BUY = none) ∧
    (p ≤ 0 → place_order p .BUY = some ⟨.BUY, 10⟩) ∧
    (0 < p → place_order p .SELL = some ⟨.SELL, p⟩) ∧
    (p ≤ 0 → place_order p .SELL = none) ∧
    place_order 0 .SELL = none ∧
    (∀ a o, place_order p a = some o → 0 < o.qty) := by
  refine ⟨fun h => ?_, fun h => ?_, fun h => ?_, fun h => ?_, ?_, fun a o h => ?_⟩
  · simp [place_order, h]
  · simp [place_order, not_lt.mpr h]
  · simp [place_order, not_le.mpr h]
  · simp [place_order, h]
  · simp [place_order]
  · cases a with
    | BUY =>
      rw [place_order_BUY] at h
      split at h
      · cases h
      · injection h with h
        rw [← h]
        decide
    | SELL =>
      rw [place_order_SELL] at h
      split at h
      · cases h
      · next hp =>
        injection h with h
        rw [← h]
        exact lt_of_not_le hp
    | HOLD => simp [place_order_HOLD] at h

/-- Witness for C1 at the concrete positions 5 and 0. -/
theorem place_order_reconciliation_witness :
    place_order 5 .BUY = none ∧ place_order 0 .BUY = some ⟨.BUY, 10⟩ ∧
    place_order 5 .SELL = some ⟨.SELL, 5⟩ ∧ place_order 0 .SELL = none ∧
    (0 : ℤ) < (⟨.BUY, 10⟩ : OrderIntent).qty :=
  ⟨(place_order_reconciliation 5).1 (by decide),
   (place_order_reconciliation 0).2.1 (by decide),
   (place_order_reconciliation 5).2.2.1 (by decide),
   (place_order_reconciliation 0).2.2.2.1 (by decide),
   (place_order_reconciliation 0).2.2.2.2.2 .BUY ⟨.BUY, 10⟩
     ((place_order_reconciliation 0).2.1 (by decide))⟩

/-- C3: a bar series shorter than 26 periods (in particular an empty
one) makes `calculate_indicators` report insufficient history by
returning `None`, and the scan body then skips the symbol entirely: no
filter evaluation, no signal, no order intent. -/
theorem insufficient_history_skips_symbol (bars : List Bar) (p : ℤ)
    (h : bars.length < 26) :
    calculate_indicators bars = none ∧ pipeline bars p = (none, none) ∧
    monitor_and_trade_step bars p = none := by
  have hc := calculate_indicators_eq_none h
  have hp := pipeline_none_of_indicators_none p hc
  exact ⟨hc, hp, by simp [monitor_and_trade_step, hp]⟩

/-- Witness for C3: the spec's 10-bar scenario. -/
theorem insufficient_history_skips_symbol_witness :
    (List.replicate 10 (⟨100, 2000000⟩ : Bar)).length < 26 ∧
    (calculate_indicators (List.replicate 10 ⟨100, 2000000⟩) = none ∧
      pipeline (List.replicate 10 ⟨100, 2000000⟩) 0 = (none, none) ∧
      monitor_and_trade_step (List.replicate 10 ⟨100, 2000000⟩) 0 = none) :=
  ⟨by decide, insufficient_history_skips_symbol _ 0 (by decide)⟩

/-- C5: rerunning the evaluation pipeline on the identical bar sequence
and identical position yields the identical signal and order intent.
Each run rebuilds the feature frame from the bars (the source
re-downloads and recomputes inside `calculate_indicators`), and the only
in-place frame mutation, the column flattening of source line 107, acts
on that run-local frame, so nothing carries over between runs. -/
theorem pipeline_rerun_identical (bars : List Bar) (p : ℤ)
    (s₁ s₂ : Option Signal) (o₁ o₂ : Option OrderIntent)
    (h₁ : pipeline bars p = (s₁, o₁)) (h₂ : pipeline bars p = (s₂, o₂)) :
    s₁ = s₂ ∧ o₁ = o₂ := by
  have h := h₁.symm.trans h₂
  exact ⟨congrArg Prod.fst h, congrArg Prod.snd h⟩

/-- Witness for C5 on a concrete 26-bar series. -/
theorem pipeline_rerun_identical_witness :
    pipeline (List.replicate 26 ⟨100, 2000000⟩) 0 = (none, none) ∧
    ((none : Option Signal) = none ∧ (none : Option OrderIntent) = none) := by
  have h : pipeline (List.replicate 26 ⟨100, 2000000⟩) 0 = (none, none) := by decide
  exact ⟨h, pipeline_rerun_identical _ 0 none none none none h h⟩

/-- C6 counterexample: a 13-bar series (shorter than 14 periods) makes
`calculate_indicators` return no table at all, so contrary to the claim
no SMA/MACD columns are returned either; and in a table the engine does
return, every RSI cell is present (here NaN-defaulted to 50), not
absent. -/
theorem short_series_rsi_counterexample :
    calculate_indicators (List.replicate 13 ⟨100, 2000000⟩) = none ∧
    ∀ r ∈ (calculate_indicators (List.replicate 26 ⟨100, 2000000⟩)).getD [],
      r.rsi = some 50 := by decide

/-- C6 amended: a series shorter than 14 periods is in particular
shorter than 26, so the engine reports insufficient history for the
symbol as a whole — it returns no feature table (hence also no
SMA/MACD), and the scan skips the instrument.  Moreover, in every table
the engine does return, the RSI column is present in every row: each
cell carries the raw RSI value when that is defined and defaults to 50
otherwise, so the column is never left absent. -/
theorem short_series_returns_no_table (bars : List Bar) (p : ℤ) :
    (bars.length < 14 →
      calculate_indicators bars = none ∧ pipeline bars p = (none, none)) ∧
    (∀ T, calculate_indicators bars = some T → ∀ r ∈ T, r.rsi.isSome = true) ∧
    (∀ T, calculate_indicators bars = some T → ∀ i, i < bars.length →
      (rsiRaw bars i = none → (T.getD i default).rsi = some 50) ∧
      (∀ v, rsiRaw bars i = some v → (T.getD i default).rsi = some v)) := by
  refine ⟨fun h => ?_, fun T hT r hr => ?_, fun T hT i hi => ?_⟩
  · have hc := calculate_indicators_eq_none (Nat.lt_of_lt_of_le h (by norm_num))
    exact ⟨hc, pipeline_none_of_indicators_none p hc⟩
  · obtain ⟨-, hTm⟩ := calculate_indicators_some hT
    subst hTm
    rw [List.mem_map] at hr
    obtain ⟨j, -, hrj⟩ := hr
    rw [← hrj]
    simp [mkRow, fillWith]
  · obtain ⟨-, hTm⟩ := calculate_indicators_some hT
    subst hTm
    rw [getD_range_map (mkRow bars) hi default]
    exact ⟨fun hn => by simp [mkRow, fillWith, hn],
      fun v hv => by simp [mkRow, fillWith, hv]⟩

/-- Witness for the amended C6: the no-table half at a 13-bar series,
and the RSI-present-and-defaulted half at a returned 26-bar table, where
the raw RSI of the last row is undefined (0/0) and the cell reads 50. -/
theorem short_series_returns_no_table_witness :
    (calculate_indicators (List.replicate 13 ⟨100, 2000000⟩) = none ∧
      pipeline (List.replicate 13 ⟨100, 2000000⟩) 0 = (none, none)) ∧
    (((calculate_indicators (List.replicate 26 ⟨100, 2000000⟩)).getD []).getD 25
        default).rsi.isSome = true ∧
    (((calculate_indicators (List.replicate 26 ⟨100, 2000000⟩)).getD []).getD 25
        default).rsi = some 50 := by
  have h : calculate_indicators (List.replicate 26 ⟨100, 2000000⟩)
      = some ((calculate_indicators (List.replicate 26 ⟨100, 2000000⟩)).getD []) := by
    decide
  refine ⟨(short_series_returns_no_table (List.replicate 13 ⟨100, 2000000⟩) 0).1
      (by decide), ?_, ?_⟩
  · exact (short_series_returns_no_table (List.replicate 26 ⟨100, 2000000⟩) 0).2.1
      _ h _ (by decide)
  · exact ((short_series_returns_no_table (List.replicate 26 ⟨100, 2000000⟩) 0).2.2
      _ h 25 (by decide)).1 (by decide)

/-- C9: the buy and sell branch conditions exclude each other on every
feature row (`close` cannot be on both sides of `sma`), so the evaluator
returns the same signal when the two branches are tested in the opposite
order. -/
theorem buy_sell_exclusive_order_irrelevant (data : List FeatureRow) (r : FeatureRow) :
    (buySig r && sellSig r) = false ∧
    evaluate_trading_signals_sellFirst data = evaluate_trading_signals data := by
  have hex : ∀ q : FeatureRow, buySig q = true → sellSig q = false := by
    intro q hb
    cases hs : sellSig q
    · rfl
    · exfalso
      obtain ⟨h1, -⟩ := of_decide_eq_true hb
      obtain ⟨h2, -⟩ := of_decide_eq_true hs
      exact lt_asymm h1 h2
  constructor
  · cases hb : buySig r
    · simp
    · simp [hex r hb]
  · unfold evaluate_trading_signals evaluate_trading_signals_sellFirst
    cases hl : (data.filter rowComplete).getLast? with
    | none => rfl
    | some latest =>
      cases hb : buySig latest with
      | false => cases hs : sellSig latest <;> simp [hb, hs]
      | true => simp [hb, hex latest hb]

/-- An element produced by `getLast?` belongs to the list. -/
theorem mem_of_getLast?_eq {α : Type} {l : List α} {a : α}
    (h : l.getLast? = some a) : a ∈ l := by
  obtain ⟨hne, heq⟩ := List.mem_getLast?_eq_getLast (Option.mem_def.mpr h)
  rw [heq]
  exact List.getLast_mem hne

/-- The evaluator's decision on the last fully-defined row, when one
exists. -/
theorem evaluate_eq_of_find? {data : List FeatureRow} {r : FeatureRow}
    (hf : data.reverse.find? rowComplete = some r) :
    evaluate_trading_signals data =
      if buySig r then .BUY else if sellSig r then .SELL else .HOLD := by
  unfold evaluate_trading_signals
  rw [getLast?_filter_eq_find?_reverse, hf]

/-- With no fully-defined row the evaluator holds. -/
theorem evaluate_eq_HOLD_of_find?_none {data : List FeatureRow}
    (hf : data.reverse.find? rowComplete = none) :
    evaluate_trading_signals data = .HOLD := by
  unfold evaluate_trading_signals
  rw [getLast?_filter_eq_find?_reverse, hf]

/-- C2: `evaluate_trading_signals` first drops every row with an
undefined required cell, then decides on the most recent remaining row:
BUY exactly when close is above the SMA, MACD above the signal line and
RSI above 50; SELL exactly when all three are reversed; HOLD otherwise,
and in particular HOLD when no row has all five cells defined. -/
theorem evaluate_trading_signals_latest_row (data : List FeatureRow) :
    (evaluate_trading_signals data = .BUY ↔
      ∃ r c s m ms rs, data.reverse.find? rowComplete = some r ∧
        r.close = some c ∧ r.sma = some s ∧ r.macd = some m ∧
        r.macdSignal = some ms ∧ r.rsi = some rs ∧
        s < c ∧ ms < m ∧ 50 < rs) ∧
    (evaluate_trading_signals data = .SELL ↔
      ∃ r c s m ms rs, data.reverse.find? rowComplete = some r ∧
        r.close = some c ∧ r.sma = some s ∧ r.macd = some m ∧
        r.macdSignal = some ms ∧ r.rsi = some rs ∧
        c < s ∧ m < ms ∧ rs < 50) ∧
    (data.reverse.find? rowComplete = none →
      evaluate_trading_signals data = .HOLD) := by
  cases hf : data.reverse.find? rowComplete with
  | none =>
    have he := evaluate_eq_HOLD_of_find?_none hf
    refine ⟨⟨fun h => ?_, ?_⟩, ⟨fun h => ?_, ?_⟩, fun _ => he⟩
    · rw [he] at h; cases h
    · rintro ⟨r, c, s, m, ms, rs, hr, -⟩; cases hr
    · rw [he] at h; cases h
    · rintro ⟨r, c, s, m, ms, rs, hr, -⟩; cases hr
  | some r =>
    have he := evaluate_eq_of_find? hf
    have hc : rowComplete r = true := List.find?_some hf
    simp only [rowComplete, Bool.and_eq_true, Option.isSome_iff_exists] at hc
    obtain ⟨⟨⟨⟨⟨c, hcl⟩, s, hsm⟩, m, hmc⟩, ms, hms⟩, rs, hrs⟩ := hc
    have hbuy : buySig r = decide (s < c ∧ ms < m ∧ (50 : ℚ) < rs) := by
      unfold buySig
      rw [hcl, hsm, hmc, hms, hrs]
      simp only [Option.getD_some]
    have hsell : sellSig r = decide (c < s ∧ m < ms ∧ rs < (50 : ℚ)) := by
      unfold sellSig
      rw [hcl, hsm, hmc, hms, hrs]
      simp only [Option.getD_some]
    have hvals : ∀ r' (c' s' m' ms' rs' : ℚ),
        some r = some r' → r'.close = some c' →
        r'.sma = some s' → r'.macd = some m' → r'.macdSignal = some ms' →
        r'.rsi = some rs' →
        c' = c ∧ s' = s ∧ m' = m ∧ ms' = ms ∧ rs' = rs := by
      intro r' c' s' m' ms' rs' hr' h1 h2 h3 h4 h5
      injection hr' with hr'
      subst hr'
      rw [hcl] at h1; rw [hsm] at h2; rw [hmc] at h3; rw [hms] at h4; rw [hrs] at h5
      injection h1 with h1; injection h2 with h2; injection h3 with h3
      injection h4 with h4; injection h5 with h5
      exact ⟨h1.symm, h2.symm, h3.symm, h4.symm, h5.symm⟩
    have hB : evaluate_trading_signals data = .BUY ↔
        (s < c ∧ ms < m ∧ (50 : ℚ) < rs) := by
      rw [he, hbuy]
      by_cases hb : s < c ∧ ms < m ∧ (50 : ℚ) < rs
      · simp [hb]
      · rw [decide_eq_false hb]
        simp only [Bool.false_eq_true, if_false]
        refine ⟨fun h => ?_, fun h => absurd h hb⟩
        cases hs : sellSig r
        · rw [hs] at h; simp at h
        · rw [hs] at h; simp at h
    have hS : evaluate_trading_signals data = .SELL ↔
        (c < s ∧ m < ms ∧ rs < (50 : ℚ)) := by
      rw [he, hbuy, hsell]
      by_cases hs : c < s ∧ m < ms ∧ rs < (50 : ℚ)
      · have hbf : ¬(s < c ∧ ms < m ∧ (50 : ℚ) < rs) := fun hb => lt_asymm hs.1 hb.1
        rw [decide_eq_false hbf, decide_eq_true hs]
        simp [hs]
      · by_cases hb : s < c ∧ ms < m ∧ (50 : ℚ) < rs
        · rw [decide_eq_true hb]
          simp [hs]
        · rw [decide_eq_false hb, decide_eq_false hs]
          simp [hs]
    refine ⟨hB.trans ⟨?_, ?_⟩, hS.trans ⟨?_, ?_⟩, fun hn => by cases hn⟩
    · intro hb
      exact ⟨r, c, s, m, ms, rs, rfl, hcl, hsm, hmc, hms, hrs, hb.1, hb.2.1, hb.2.2⟩
    · rintro ⟨r', c', s', m', ms', rs', hr', h1, h2, h3, h4, h5, h6, h7, h8⟩
      obtain ⟨e1, e2, e3, e4, e5⟩ := hvals r' c' s' m' ms' rs' hr' h1 h2 h3 h4 h5
      subst e1; subst e2; subst e3; subst e4; subst e5
      exact ⟨h6, h7, h8⟩
    · intro hs
      exact ⟨r, c, s, m, ms, rs, rfl, hcl, hsm, hmc, hms, hrs, hs.1, hs.2.1, hs.2.2⟩
    · rintro ⟨r', c', s', m', ms', rs', hr', h1, h2, h3, h4, h5, h6, h7, h8⟩
      obtain ⟨e1, e2, e3, e4, e5⟩ := hvals r' c' s' m' ms' rs' hr' h1 h2 h3 h4 h5
      subst e1; subst e2; subst e3; subst e4; subst e5
      exact ⟨h6, h7, h8⟩

/-- Witness for C2: a one-row table in the buy configuration, and the
empty table. -/
theorem evaluate_trading_signals_latest_row_witness :
    evaluate_trading_signals
      [⟨some 110, some 100, some 5, some 3, some 60, none, none⟩] = .BUY ∧
    evaluate_trading_signals [] = .HOLD :=
  ⟨(evaluate_trading_signals_latest_row _).1.mpr
      ⟨⟨some 110, some 100, some 5, some 3, some 60, none, none⟩, 110, 100, 5, 3, 60,
        by decide, rfl, rfl, rfl, rfl, rfl, by decide, by decide, by decide⟩,
   (evaluate_trading_signals_latest_row []).2.2 rfl⟩

/-- C7: `filter_stocks` passes exactly when the latest row exists and
its average volume and volatility are defined and strictly above the
overridable thresholds; an undefined value in either cell, or an empty
table, fails closed to a reject (the source catches every exception and
returns `False`).  The embedded function is total and pure. -/
theorem filter_stocks_threshold_and_fail_closed (data : List FeatureRow) (mv mvol : ℚ) :
    (filter_stocks data mv mvol = true ↔
      ∃ r av vol, data.getLast? = some r ∧ r.avgVolume = some av ∧
        r.volatility = some vol ∧ mv < av ∧ mvol < vol) ∧
    (∀ r, data.getLast? = some r → (r.avgVolume = none ∨ r.volatility = none) →
      filter_stocks data mv mvol = false) ∧
    (data.getLast? = none → filter_stocks data mv mvol = false) := by
  refine ⟨filter_stocks_true_iff data mv mvol, ?_, ?_⟩
  · intro r hr hnone
    obtain ⟨cl, sm, mc, msig, rsv, vol, av⟩ := r
    unfold filter_stocks
    rw [hr]
    rcases hnone with h | h
    · simp only at h
      subst h
      cases vol <;> rfl
    · simp only at h
      subst h
      cases av <;> rfl
  · intro h
    unfold filter_stocks
    rw [h]

/-- Witness for C7: a passing row, a row with an undefined average
volume, and the empty table, at the default thresholds. -/
theorem filter_stocks_threshold_and_fail_closed_witness :
    filter_stocks [⟨none, none, none, none, none, some 1, some 2000000⟩]
      1000000 (2 / 100) = true ∧
    filter_stocks [⟨none, none, none, none, none, some 1, none⟩]
      1000000 (2 / 100) = false ∧
    filter_stocks [] 1000000 (2 / 100) = false :=
  ⟨(filter_stocks_threshold_and_fail_closed _ _ _).1.mpr
      ⟨⟨none, none, none, none, none, some 1, some 2000000⟩, 2000000, 1,
        rfl, rfl, rfl, by decide, by decide⟩,
   (filter_stocks_threshold_and_fail_closed _ _ _).2.1 _ rfl (Or.inl rfl),
   (filter_stocks_threshold_and_fail_closed [] _ _).2.2 rfl⟩

/-- C4: every defined raw RSI cell lies within [0, 100], and in the
boundary case of a zero trailing average loss with a positive trailing
average gain the RSI is exactly 100 (the limit of the formula as rs
grows without bound, which is what the float division by zero
produces). -/
theorem rsi_within_bounds (bars : List Bar) (i : ℕ) :
    (∀ v, rsiRaw bars i = some v → 0 ≤ v ∧ v ≤ 100) ∧
    (∀ g, avgLoss bars i = some 0 → avgGain bars i = some g → 0 < g →
      rsiRaw bars i = some 100) := by
  constructor
  · intro v hv
    unfold rsiRaw at hv
    cases hg : avgGain bars i with
    | none =>
      cases hl : avgLoss bars i with
      | none => rw [hg, hl] at hv; cases hv
      | some l => rw [hg, hl] at hv; cases hv
    | some g =>
      cases hl : avgLoss bars i with
      | none => rw [hg, hl] at hv; cases hv
      | some l =>
        rw [hg, hl] at hv
        dsimp only at hv
        have hg0 : 0 ≤ g := rollingMean_nonneg (gain_nonneg bars) hg
        have hl0 : 0 ≤ l := rollingMean_nonneg (loss_nonneg bars) hl
        by_cases hlz : l = 0
        · rw [if_pos hlz] at hv
          by_cases hgz : g = 0
          · rw [if_pos hgz] at hv; cases hv
          · rw [if_neg hgz] at hv
            injection hv with hv
            rw [← hv]
            norm_num
        · rw [if_neg hlz] at hv
          injection hv with hv
          have hlpos : 0 < l := lt_of_le_of_ne hl0 (Ne.symm hlz)
          have ht : 0 ≤ g / l := div_nonneg hg0 (le_of_lt hlpos)
          have h1 : (0 : ℚ) < 1 + g / l := by linarith
          have h2 : 100 / (1 + g / l) ≤ 100 := by
            rw [div_le_iff₀ h1]
            nlinarith
          have h3 : 0 < 100 / (1 + g / l) := div_pos (by norm_num) h1
          rw [← hv]
          constructor <;> linarith
  · intro g hl hg hgpos
    unfold rsiRaw
    rw [hg, hl]
    dsimp only
    rw [if_pos rfl, if_neg (ne_of_gt hgpos)]

/-- Witness for C4: fourteen strictly rising closes give a zero average
loss, a positive average gain, and an RSI of exactly 100, which lies in
[0, 100]. -/
theorem rsi_within_bounds_witness :
    rsiRaw ((List.range 14).map fun i => (⟨(i : ℚ) + 1, 1000000⟩ : Bar)) 13 = some 100 ∧
    (0 ≤ (100 : ℚ) ∧ (100 : ℚ) ≤ 100) := by
  have h := rsi_within_bounds ((List.range 14).map fun i => (⟨(i : ℚ) + 1, 1000000⟩ : Bar)) 13
  have h100 := h.2 (13 / 14) (by decide) (by decide) (by decide)
  exact ⟨h100, h.1 100 h100⟩

/-- C8: the engine's fallback policy and row-count invariant.  Every
returned table has exactly one row per input bar; an SMA cell carries
forward the nearest earlier defined raw SMA value and stays undefined
while no earlier value exists; each MACD, Signal, RSI, Volatility and
AvgVolume cell equals its raw value when that is defined and otherwise
defaults to 0, 0, 50, 0 and 0 respectively. -/
theorem indicator_fallback_policy (bars : List Bar) (T : List FeatureRow)
    (h : calculate_indicators bars = some T) :
    T.length = bars.length ∧
    ∀ i, i < bars.length →
      ((∀ j, j ≤ i → smaRaw bars j = none) → (T.getD i default).sma = none) ∧
      (∀ j v, j ≤ i → smaRaw bars j = some v →
        (∀ k, j < k → k ≤ i → smaRaw bars k = none) →
        (T.getD i default).sma = some v) ∧
      (∀ v, macdRaw bars i = some v → (T.getD i default).macd = some v) ∧
      (macdRaw bars i = none → (T.getD i default).macd = some 0) ∧
      (∀ v, signalRaw bars i = some v → (T.getD i default).macdSignal = some v) ∧
      (signalRaw bars i = none → (T.getD i default).macdSignal = some 0) ∧
      (∀ v, rsiRaw bars i = some v → (T.getD i default).rsi = some v) ∧
      (rsiRaw bars i = none → (T.getD i default).rsi = some 50) ∧
      (∀ v, volRaw bars i = some v → (T.getD i default).volatility = some v) ∧
      (volRaw bars i = none → (T.getD i default).volatility = some 0) ∧
      (∀ v, avgVolRaw bars i = some v → (T.getD i default).avgVolume = some v) ∧
      (avgVolRaw bars i = none → (T.getD i default).avgVolume = some 0) := by
  obtain ⟨h26, hT⟩ := calculate_indicators_some h
  subst hT
  refine ⟨by simp, fun i hi => ?_⟩
  rw [getD_range_map (mkRow bars) hi default]
  refine ⟨fun hn => ?_, fun j v hj hv ha => ?_, fun v hv => ?_, fun hn => ?_,
    fun v hv => ?_, fun hn => ?_, fun v hv => ?_, fun hn => ?_,
    fun v hv => ?_, fun hn => ?_, fun v hv => ?_, fun hn => ?_⟩
  · simpa [mkRow] using ffillAt_eq_none (smaRaw bars) i hn
  · simpa [mkRow] using ffillAt_carry (smaRaw bars) i j v hj hv ha
  · simp [mkRow, fillWith, hv]
  · simp [mkRow, fillWith, hn]
  · simp [mkRow, fillWith, hv]
  · simp [mkRow, fillWith, hn]
  · simp [mkRow, fillWith, hv]
  · simp [mkRow, fillWith, hn]
  · simp [mkRow, fillWith, hv]
  · simp [mkRow, fillWith, hn]
  · simp [mkRow, fillWith, hv]
  · simp [mkRow, fillWith, hn]

/-- Witness for C8 on a constant 26-bar series: one row per bar, the RSI
cell of the last row defaults to 50 (the raw RSI is undefined because
both trailing averages are 0), and the SMA cell of the last row carries
the defined raw value 100. -/
theorem indicator_fallback_policy_witness :
    ((calculate_indicators (List.replicate 26 ⟨100, 2000000⟩)).getD []).length
      = (List.replicate 26 (⟨100, 2000000⟩ : Bar)).length ∧
    (((calculate_indicators (List.replicate 26 ⟨100, 2000000⟩)).getD []).getD 25
        default).rsi = some 50 ∧
    (((calculate_indicators (List.replicate 26 ⟨100, 2000000⟩)).getD []).getD 25
        default).sma = some 100 := by
  have h : calculate_indicators (List.replicate 26 ⟨100, 2000000⟩)
      = some ((calculate_indicators (List.replicate 26 ⟨100, 2000000⟩)).getD []) := by
    decide
  have H := indicator_fallback_policy _ _ h
  have Hi := H.2 25 (by decide)
  refine ⟨H.1, ?_, ?_⟩
  · exact Hi.2.2.2.2.2.2.2.1 (by decide)
  · exact Hi.2.1 25 100 (Nat.le_refl 25) (by decide)
      fun k hk1 hk2 => absurd hk2 (Nat.not_le.mpr hk1)

/-- C10: every Volatility and AvgVolume cell of a table returned by the
engine is defined (both columns are 0-filled), so `filter_stocks` on
such a table can never meet its undefined-value reject condition, and
its verdict is exactly the threshold comparison on the defined cells of
the latest row; the reject branch is reachable only for tables the
engine did not produce. -/
theorem engine_table_filter_never_undefined (bars : List Bar) (T : List FeatureRow)
    (h : calculate_indicators bars = some T) (mv mvol : ℚ) :
    (∀ r ∈ T, r.volatility.isSome = true ∧ r.avgVolume.isSome = true) ∧
    (∀ r, T.getLast? = some r → ¬(r.avgVolume = none ∨ r.volatility = none)) ∧
    (filter_stocks T mv mvol = true ↔
      ∃ r av vol, T.getLast? = some r ∧ r.avgVolume = some av ∧
        r.volatility = some vol ∧ mv < av ∧ mvol < vol) := by
  obtain ⟨h26, hT⟩ := calculate_indicators_some h
  have hmem : ∀ r ∈ T, r.volatility.isSome = true ∧ r.avgVolume.isSome = true := by
    subst hT
    intro r hr
    rw [List.mem_map] at hr
    obtain ⟨i, -, hri⟩ := hr
    rw [← hri]
    simp [mkRow, fillWith]
  refine ⟨hmem, ?_, filter_stocks_true_iff T mv mvol⟩
  intro r hr hnone
  obtain ⟨hvol, hav⟩ := hmem r (mem_of_getLast?_eq hr)
  rcases hnone with hn | hn
  · rw [hn] at hav; cases hav
  · rw [hn] at hvol; cases hvol

/-- Witness for C10 on a constant 26-bar series, with the volume
threshold at its default and the volatility threshold overridden to -1
so that the zero volatility of a flat series passes. -/
theorem engine_table_filter_never_undefined_witness :
    ((((calculate_indicators (List.replicate 26 ⟨100, 2000000⟩)).getD []).getD 0
        default).volatility.isSome = true ∧
      (((calculate_indicators (List.replicate 26 ⟨100, 2000000⟩)).getD []).getD 0
        default).avgVolume.isSome = true) ∧
    filter_stocks ((calculate_indicators (List.replicate 26 ⟨100, 2000000⟩)).getD [])
      1000000 (-1) = true := by
  have h : calculate_indicators (List.replicate 26 ⟨100, 2000000⟩)
      = some ((calculate_indicators (List.replicate 26 ⟨100, 2000000⟩)).getD []) := by
    decide
  have H := engine_table_filter_never_undefined _ _ h 1000000 (-1)
  constructor
  · exact H.1 _ (by decide)
  · exact H.2.2.mpr
      ⟨((calculate_indicators (List.replicate 26 ⟨100, 2000000⟩)).getD []).getD 25
          default, 2000000, 0, by decide, by decide, by decide, by decide, by decide⟩

end Theorems

end SP500
